import Mathlib

/-!
Shallow embedding of the audio mixing and scheduling core of the repository.

Numeric model: JavaScript numbers are embedded as exact rationals (ℚ); array
samples are lists of rationals; the mixing state is a list of channels, each a
list of samples.  Fallible operations return Except.  All definitions are
translated from the TypeScript source files:
  src/src/services/audioMixerService.ts      (mixer, normalization, WAV export)
  src/unnamed/part_002                        (timeline scheduler)
  src/src/services/elevenlabs/ssmlGenerator.ts (pause durations)
  src/src/services/elevenlabs/voiceSettings.ts (emotion transition table)
-/

/-- JavaScript `x || d` on an optional number: the default `d` is used both
when the value is absent (undefined) and when it is 0 (falsy). -/
def jsOr (x : Option ℚ) (d : ℚ) : ℚ :=
  match x with
  | none => d
  | some v => if v = 0 then d else v

/-- JavaScript `Math.abs`, written with an explicit comparison so that it
evaluates inside the kernel. -/
def jsAbs (q : ℚ) : ℚ := if q < 0 then -q else q

/-- JavaScript `Math.min` on two numbers. -/
def jsMin (a b : ℚ) : ℚ := if a ≤ b then a else b

/-- JavaScript `Math.max` on two numbers. -/
def jsMax (a b : ℚ) : ℚ := if a ≤ b then b else a

lemma jsAbs_eq_abs (q : ℚ) : jsAbs q = |q| := by
  unfold jsAbs
  split_ifs with h
  · exact (abs_of_neg h).symm
  · exact (abs_of_nonneg (le_of_not_lt h)).symm

lemma jsMin_eq_min (a b : ℚ) : jsMin a b = min a b := (min_def a b).symm

lemma jsMax_eq_max (a b : ℚ) : jsMax a b = max a b := (max_def a b).symm

/-! ## Normalization (audioMixerService.ts, normalizeBuffer, lines 113-144) -/

/-- Peak scan of `normalizeBuffer`: fold over every channel and every sample,
keeping the largest absolute value seen (accumulator starts at 0). -/
def peakAbs (buffer : List (List ℚ)) : ℚ :=
  buffer.foldl
    (fun maxValue channelData =>
      channelData.foldl (fun m x => if jsAbs x > m then jsAbs x else m) maxValue)
    0

/-- `normalizeBuffer`: if the peak is at most `targetLevel` the buffer is
returned unchanged, otherwise every sample of every channel is multiplied by
`targetLevel / peak`.  The source calls this with the default target 0.9. -/
def normalizeBuffer (buffer : List (List ℚ)) (targetLevel : ℚ) : List (List ℚ) :=
  let maxValue := peakAbs buffer
  if maxValue ≤ targetLevel then buffer
  else
    let gainFactor := targetLevel / maxValue
    buffer.map (fun channelData => channelData.map (fun x => x * gainFactor))

lemma peakStep_eq_max (m x : ℚ) : (if jsAbs x > m then jsAbs x else m) = max m |x| := by
  rw [jsAbs_eq_abs]
  by_cases h : |x| > m
  · simp [h, max_eq_right (le_of_lt h)]
  · simp [h, max_eq_left (le_of_not_lt h)]

lemma le_foldl_peak (l : List ℚ) (m : ℚ) :
    m ≤ l.foldl (fun m x => if jsAbs x > m then jsAbs x else m) m := by
  induction l generalizing m with
  | nil => simp
  | cons a t ih =>
    simp only [List.foldl_cons]
    refine le_trans ?_ (ih _)
    rw [peakStep_eq_max]
    exact le_max_left _ _

lemma mem_le_foldl_peak (l : List ℚ) (m : ℚ) (x : ℚ) (hx : x ∈ l) :
    |x| ≤ l.foldl (fun m x => if jsAbs x > m then jsAbs x else m) m := by
  induction l generalizing m with
  | nil => cases hx
  | cons a t ih =>
    simp only [List.foldl_cons]
    rcases List.mem_cons.mp hx with h | h
    · subst h
      refine le_trans ?_ (le_foldl_peak t _)
      rw [peakStep_eq_max]
      exact le_max_right _ _
    · exact ih _ h

lemma le_foldl_buffer (B : List (List ℚ)) (m : ℚ) :
    m ≤ B.foldl (fun mv ch => ch.foldl (fun m x => if jsAbs x > m then jsAbs x else m) mv) m := by
  induction B generalizing m with
  | nil => simp
  | cons ch rest ih =>
    simp only [List.foldl_cons]
    exact le_trans (le_foldl_peak ch m) (ih _)

lemma mem_le_foldl_buffer (B : List (List ℚ)) (m : ℚ) (chan : List ℚ) (x : ℚ)
    (hc : chan ∈ B) (hx : x ∈ chan) :
    |x| ≤ B.foldl (fun mv ch => ch.foldl (fun m x => if jsAbs x > m then jsAbs x else m) mv) m := by
  induction B generalizing m with
  | nil => cases hc
  | cons ch rest ih =>
    simp only [List.foldl_cons]
    rcases List.mem_cons.mp hc with h | h
    · rw [h] at hx
      exact le_trans (mem_le_foldl_peak ch m x hx) (le_foldl_buffer rest _)
    · exact ih _ h

lemma mem_le_peakAbs (buffer : List (List ℚ)) (chan : List ℚ) (x : ℚ)
    (hc : chan ∈ buffer) (hx : x ∈ chan) : |x| ≤ peakAbs buffer :=
  mem_le_foldl_buffer buffer 0 chan x hc hx

lemma peakAbs_nonneg (buffer : List (List ℚ)) : 0 ≤ peakAbs buffer :=
  le_foldl_buffer buffer 0

lemma normalizeBuffer_mem_le (buffer : List (List ℚ)) (target : ℚ) (ht : 0 < target)
    (chan : List ℚ) (hc : chan ∈ normalizeBuffer buffer target)
    (x : ℚ) (hx : x ∈ chan) : |x| ≤ target := by
  unfold normalizeBuffer at hc
  by_cases hpeak : peakAbs buffer ≤ target
  · rw [if_pos hpeak] at hc
    exact le_trans (mem_le_peakAbs buffer chan x hc hx) hpeak
  · rw [if_neg hpeak] at hc
    rcases List.mem_map.mp hc with ⟨chan0, hc0, hchan⟩
    subst hchan
    rcases List.mem_map.mp hx with ⟨x0, hx0, hxx⟩
    subst hxx
    have hpos : 0 < peakAbs buffer := lt_trans ht (lt_of_not_le hpeak)
    have hb : |x0| ≤ peakAbs buffer := mem_le_peakAbs buffer chan0 x0 hc0 hx0
    have hg : |x0 * (target / peakAbs buffer)| = |x0| * (target / peakAbs buffer) := by
      rw [abs_mul, abs_of_nonneg (le_of_lt (div_pos ht hpos))]
    rw [hg]
    calc |x0| * (target / peakAbs buffer)
        ≤ peakAbs buffer * (target / peakAbs buffer) := by
          exact mul_le_mul_of_nonneg_right hb (le_of_lt (div_pos ht hpos))
      _ = target := by field_simp

/-! ## Mixer data model (audioMixerService.ts, lines 3-17) -/

/-- `AudioSegment` from audioMixerService.ts.  Optional numeric fields are
`Option ℚ`; `environment` is unused by the mixing path and omitted. -/
structure AudioSegment where
  startTime : ℚ
  duration : ℚ
  audioUrl : String
  volume : Option ℚ
  fadeIn : Option ℚ
  fadeOut : Option ℚ
deriving DecidableEq

/-- A decoded audio buffer as used by the mixing loop: per-channel sample
lists plus the frame count (`buffer.length`). -/
structure DecodedAudioBuffer where
  channels : List (List ℚ)
  length : ℕ
deriving DecidableEq

/-- The audio handle of a mixing result: either a source URL passed through
verbatim (single-segment fast path) or a blob of the exported WAV bytes. -/
inductive AudioHandle where
  | url (s : String)
  | wavBlob (bytes : List ℕ)
deriving DecidableEq

/-- `MixedAudioResult` from audioMixerService.ts. -/
structure MixedAudioResult where
  audioUrl : AudioHandle
  duration : ℚ
  segments : List AudioSegment
deriving DecidableEq

/-- Failure modes of `mixAudioSegments`; the empty-input throw at line 157. -/
inductive MixError where
  | emptyInput
deriving DecidableEq

/-! ## WAV export (audioMixerService.ts, exportToBuffer, lines 269-307) -/

/-- The float buffer handed to the WAV exporter: channel data, frame count
and sample rate. -/
structure PcmAudioBuffer where
  channels : List (List ℚ)
  length : ℕ
  sampleRate : ℕ

/-- Little-endian bytes of a 16-bit unsigned value (DataView.setUint16). -/
def u16le (n : ℕ) : List ℕ := [n % 256, n / 256 % 256]

/-- Little-endian bytes of a 32-bit unsigned value (DataView.setUint32,
which wraps modulo 2^32). -/
def u32le (n : ℕ) : List ℕ :=
  [n % 256, n / 256 % 256, n / 65536 % 256, n / 16777216 % 256]

/-- ASCII bytes of a header tag string (charCodeAt on each character). -/
def strBytes (s : String) : List ℕ := s.data.map (fun c => c.toNat)

/-- Truncation toward zero, the rounding applied by DataView.setInt16 to a
non-integral JavaScript number. -/
def ratTrunc (q : ℚ) : ℤ := if q < 0 then -⌊-q⌋ else ⌊q⌋

/-- One exported sample: clamp to [-1, 1], scale by 0x7FFF = 32767, truncate. -/
def sampleToInt16 (x : ℚ) : ℤ := ratTrunc (jsMax (-1) (jsMin 1 x) * 32767)

/-- Write the two little-endian bytes of a 16-bit signed value at `off`
(twos complement, as DataView.setInt16 stores it). -/
def writeI16 (l : List ℕ) (off : ℕ) (n : ℤ) : List ℕ :=
  ((l.set off ((n % 65536).toNat % 256)).set (off + 1) ((n % 65536).toNat / 256 % 256))

/-- The 44-byte WAV header written by exportToBuffer: RIFF size, WAVE marker,
fmt subchunk (PCM, channel count, sample rate, byte rate, block align,
16 bits per sample) and the data subchunk size. -/
def wavHeader (len C rate : ℕ) : List ℕ :=
  strBytes "RIFF" ++ u32le (36 + len) ++ strBytes "WAVE" ++ strBytes "fmt " ++
  u32le 16 ++ u16le 1 ++ u16le C ++ u32le rate ++ u32le (rate * C * 2) ++
  u16le (C * 2) ++ u16le 16 ++ strBytes "data" ++ u32le len

/-- The data section of exportToBuffer: channel-major loop writing each
two bytes of each sample at interleaved position (i * C + channel) * 2 into a
zero-initialized region (an ArrayBuffer starts zeroed). -/
def wavDataBytes (buf : PcmAudioBuffer) : List ℕ :=
  let C := buf.channels.length
  (List.range C).foldl
    (fun acc channel =>
      let channelData := buf.channels.getD channel []
      (List.range buf.length).foldl
        (fun acc i =>
          writeI16 acc ((i * C + channel) * 2) (sampleToInt16 (channelData.getD i 0)))
        acc)
    (List.replicate (buf.length * C * 2) 0)

/-- `exportToBuffer`: the header occupies bytes 0-43 and the sample data the
rest, so the whole file is their concatenation. -/
def exportToBuffer (buf : PcmAudioBuffer) : List ℕ :=
  wavHeader (buf.length * buf.channels.length * 2) buf.channels.length buf.sampleRate
    ++ wavDataBytes buf

/-- Read a 32-bit little-endian field of the exported bytes. -/
def readU32le (l : List ℕ) (off : ℕ) : ℕ :=
  l.getD off 0 + 256 * l.getD (off + 1) 0 + 65536 * l.getD (off + 2) 0 +
    16777216 * l.getD (off + 3) 0

/-- Read a 16-bit little-endian signed value of the exported bytes. -/
def readI16le (l : List ℕ) (off : ℕ) : ℤ :=
  let v := (l.getD off 0 + 256 * l.getD (off + 1) 0) % 65536
  if v < 32768 then (v : ℤ) else (v : ℤ) - 65536

/-- Modelled from the spec: the reference PCM reader of the encoder
round-trip property (spec section 8) — read the data subchunk size at offset
40 and decode that many bytes as interleaved 16-bit signed little-endian
samples starting at offset 44.  No such reader exists in the repository. -/
def specReadPCM16Samples (bytes : List ℕ) : List ℤ :=
  let dataLen := readU32le bytes 40
  (List.range (dataLen / 2)).map (fun k => readI16le bytes (44 + 2 * k))

/-! ## The mixing path (audioMixerService.ts, mixAudioSegments, lines 146-267) -/

/-- Per-sample gain of the mixing loop (lines 228-238): start from the
segment volume, multiply by the linear fade-in ramp when
s < fadeIn * sampleRate, then by the linear fade-out ramp when
s > segmentSamples - fadeOut * sampleRate. -/
def sampleGain (volume fadeIn fadeOut : ℚ) (segmentSamples sampleRate : ℕ) (s : ℕ) : ℚ :=
  let gain := volume
  let gain :=
    if (s : ℚ) < fadeIn * (sampleRate : ℚ) then
      gain * ((s : ℚ) / (fadeIn * (sampleRate : ℚ)))
    else gain
  let gain :=
    if ((segmentSamples : ℚ) - fadeOut * (sampleRate : ℚ)) < (s : ℚ) then
      gain * (((segmentSamples : ℚ) - (s : ℚ)) / (fadeOut * (sampleRate : ℚ)))
    else gain
  gain

/-- Inner sample loop of the mixer (lines 223-242) for one channel: walk the
segment samples, skip once the target index passes the end of the mix buffer
(the source breaks out of the loop; every later index would also be skipped,
so skipping is equivalent), and add sample * gain at the target index.
A negative target (never produced by the callers, which floor a non-negative
start time) would write a non-index property in JavaScript, leaving the
channel data unchanged, hence the guard. -/
def mixChannel (mixChannelData : List ℚ) (segmentChannelData : List ℚ)
    (startSample : ℤ) (totalSamples : ℕ) (volume fadeIn fadeOut : ℚ)
    (segmentSamples sampleRate : ℕ) : List ℚ :=
  (List.range segmentSamples).foldl
    (fun acc (s : ℕ) =>
      let target := startSample + (s : ℤ)
      if target ≥ (totalSamples : ℤ) then acc
      else if target < 0 then acc
      else
        acc.set target.toNat
          ((acc.getD target.toNat 0) +
            (segmentChannelData.getD s 0) *
              sampleGain volume fadeIn fadeOut segmentSamples sampleRate s))
    mixChannelData

/-- Mixing one segment into the stereo mix buffer (lines 197-243): compute
the crossfade-based fade-out (0 for the last segment, otherwise
min(0.5, duration * 0.2)), resolve the JavaScript || defaults, floor the
start time to a sample offset, and run the channel loop for channels 0 and 1,
reading channel min(channel, numberOfChannels - 1) of the segment buffer. -/
def mixSegmentInto (sampleRate totalSamples : ℕ) (mix : List (List ℚ))
    (segment : AudioSegment) (buffer : DecodedAudioBuffer) (isLast : Bool) :
    List (List ℚ) :=
  let crossfadeOut : ℚ := if isLast then 0 else jsMin ((1 : ℚ) / 2) (segment.duration * (1 / 5))
  let fadeIn := jsOr segment.fadeIn (1 / 10)
  let fadeOut := jsOr segment.fadeOut crossfadeOut
  let volume := jsOr segment.volume 1
  let startSample : ℤ := ⌊segment.startTime * (sampleRate : ℚ)⌋
  (List.range 2).foldl
    (fun mixAcc channel =>
      let segmentChannelData :=
        buffer.channels.getD (min channel (buffer.channels.length - 1)) []
      mixAcc.set channel
        (mixChannel (mixAcc.getD channel []) segmentChannelData startSample
          totalSamples volume fadeIn fadeOut buffer.length sampleRate))
    mix

/-- The segment loop of the general path (lines 196-244): fold over the
sorted segments with their index, fetching each buffer by URL; a segment is
last exactly when its index + 1 equals the list length. -/
def mixLoop (sampleRate totalSamples : ℕ) (fetch : String → DecodedAudioBuffer)
    (sorted : List AudioSegment) : List (List ℚ) :=
  sorted.enum.foldl
    (fun mix p =>
      mixSegmentInto sampleRate totalSamples mix p.2 (fetch p.2.audioUrl)
        (p.1 + 1 == sorted.length))
    [List.replicate totalSamples 0, List.replicate totalSamples 0]

/-- Comparison used by the sort at line 175 (comparator a.startTime - b.startTime). -/
def segmentLE (a b : AudioSegment) : Prop := a.startTime ≤ b.startTime

instance : DecidableRel segmentLE :=
  fun a b => inferInstanceAs (Decidable (a.startTime ≤ b.startTime))

/-- Strict version of the sort comparison, used in proofs. -/
def segmentLT (a b : AudioSegment) : Prop := a.startTime < b.startTime

/-- The in-place `segments.sort` of line 175: Array.prototype.sort is stable,
embedded as a stable insertion sort by startTime. -/
def sortSegments (segments : List AudioSegment) : List AudioSegment :=
  List.insertionSort segmentLE segments

/-- `totalDuration` (lines 178-180): reduce with max of startTime + duration,
starting from 0. -/
def totalDurationOf (segments : List AudioSegment) : ℚ :=
  segments.foldl (fun m segment => jsMax m (segment.startTime + segment.duration)) 0

/-- The general mixing path (lines 174-247): sort, allocate
ceil(totalDuration * sampleRate) stereo samples, run the segment loop, then
normalize with target 0.9.  Returns the normalized mix buffer. -/
def mixGeneral (sampleRate : ℕ) (fetch : String → DecodedAudioBuffer)
    (segments : List AudioSegment) : List (List ℚ) :=
  let sorted := sortSegments segments
  let totalDuration := totalDurationOf sorted
  let totalSamples := ⌈totalDuration * (sampleRate : ℚ)⌉.toNat
  normalizeBuffer (mixLoop sampleRate totalSamples fetch sorted) (9 / 10)

/-- `mixAudioSegments` (lines 146-267): empty input throws, a single segment
is returned verbatim (URL, duration and one-element list) without decoding,
mixing or normalization; otherwise the general path runs and the result
carries the exported WAV bytes, the total duration and the sorted list. -/
def mixAudioSegments (sampleRate : ℕ) (fetch : String → DecodedAudioBuffer)
    (segments : List AudioSegment) : Except MixError MixedAudioResult :=
  match segments with
  | [] => .error .emptyInput
  | [segment] =>
    .ok { audioUrl := .url segment.audioUrl, duration := segment.duration,
          segments := [segment] }
  | _ =>
    let sorted := sortSegments segments
    let totalDuration := totalDurationOf sorted
    let totalSamples := ⌈totalDuration * (sampleRate : ℚ)⌉.toNat
    let mixBuffer := mixGeneral sampleRate fetch segments
    let finalBytes :=
      exportToBuffer { channels := mixBuffer, length := totalSamples,
                       sampleRate := sampleRate }
    .ok { audioUrl := .wavBlob finalBytes, duration := totalDuration,
          segments := sorted }

/-! ## Timeline scheduler (src/unnamed/part_002, calculateSegmentTiming, lines 62-103) -/

/-- The fields of a tagged segment read by calculateSegmentTiming: the text
(field `segment`), the declared speech rate string, and optional explicit
fades. -/
structure TimingInput where
  segment : String
  speechRate : String
  fadeIn : Option ℚ
  fadeOut : Option ℚ
deriving DecidableEq, Inhabited

/-- A scheduled segment as produced by calculateSegmentTiming. -/
structure TimedSegment where
  segment : String
  speechRate : String
  startTime : ℚ
  duration : ℚ
  fadeIn : ℚ
  fadeOut : ℚ
deriving DecidableEq, Inhabited

/-- The chars-per-second table of lines 75-78, keyed by the French speech
rate strings of the source (the spec names them very-slow, slow, moderate,
fast); anything else falls to the default 13. -/
def charsPerSecondOf (speechRate : String) : ℚ :=
  if speechRate = "très lent" then 10
  else if speechRate = "lent" then 12
  else if speechRate = "modéré" then 15
  else if speechRate = "rapide" then 18
  else 13

/-- The pause count of line 83: occurrences of sentence-terminal punctuation
matched by the regular expression class [.!?…]. -/
def pauseCountOf (text : String) : ℕ :=
  text.data.countP (fun c => c == '.' || c == '!' || c == '?' || c == '…')

/-- Estimated duration of one segment (lines 80-86):
text length / charsPerSecond + pauseCount * 0.3. -/
def estimatedDurationOf (seg : TimingInput) : ℚ :=
  (seg.segment.length : ℚ) / charsPerSecondOf seg.speechRate +
    (pauseCountOf seg.segment : ℚ) * (3 / 10)

/-- The stateful map of lines 71-102 as a recursion carrying `currentTime`:
each segment starts at the current time and advances it by
duration - crossfade. -/
def calculateSegmentTimingAux (dFI dFO dCF : ℚ) (currentTime : ℚ) :
    List TimingInput → List TimedSegment
  | [] => []
  | seg :: rest =>
    let totalDuration := estimatedDurationOf seg
    { segment := seg.segment, speechRate := seg.speechRate,
      startTime := currentTime, duration := totalDuration,
      fadeIn := jsOr seg.fadeIn dFI, fadeOut := jsOr seg.fadeOut dFO } ::
      calculateSegmentTimingAux dFI dFO dCF (currentTime + totalDuration - dCF) rest

/-- `calculateSegmentTiming` with its option object (lines 62-68): the three
defaults 0.15, 0.2 and 0.3 are JavaScript || fallbacks. -/
def calculateSegmentTiming (segments : List TimingInput)
    (optFadeIn optFadeOut optCrossfade : Option ℚ) : List TimedSegment :=
  calculateSegmentTimingAux (jsOr optFadeIn (3 / 20)) (jsOr optFadeOut (1 / 5))
    (jsOr optCrossfade (3 / 10)) 0 segments

/-! ## Pause durations (ssmlGenerator.ts, addBreathingAndPauses, lines 36-47) -/

/-- The base pause duration of line 37: `Math.min(1500, 1000 + intensity * 700)`
milliseconds. -/
def pauseDurationOf (intensity : ℚ) : ℚ := jsMin 1500 (1000 + intensity * 700)

/-- The punctuation marks replaced with break directives at lines 40-47. -/
inductive PunctBreak where
  | period
  | bang
  | question
  | ellipsis
  | comma
deriving DecidableEq

/-- Break duration per punctuation mark (lines 40-47): the ellipsis is
scaled by 1.2, the question mark by 1.1, the exclamation mark by 1.5, the
comma by 0.7 and the period keeps the base duration. -/
def breakDurationOf (intensity : ℚ) : PunctBreak → ℚ
  | .question => pauseDurationOf intensity * (11 / 10)
  | .bang => pauseDurationOf intensity * (3 / 2)
  | .period => pauseDurationOf intensity
  | .ellipsis => pauseDurationOf intensity * (6 / 5)
  | .comma => pauseDurationOf intensity * (7 / 10)

/-! ## Emotion transition table (voiceSettings.ts, lines 81-129) -/

/-- The six inner records of `transitionMap` and the outer record keyed by
the current emotion, embedded as association lists, looked up exactly as the
JavaScript optional-chain `transitionMap[current]?.[next] || 500` does (no
entry of the table is 0, so || is the Option default). -/
def transitionMap : List (String × List (String × ℕ)) :=
  [("sensuel",
     [("excite", 600), ("jouissance", 800), ("murmure", 400), ("intense", 700),
      ("doux", 300)]),
   ("excite",
     [("sensuel", 600), ("jouissance", 400), ("murmure", 700), ("intense", 500),
      ("doux", 800)]),
   ("jouissance",
     [("sensuel", 800), ("excite", 400), ("murmure", 900), ("intense", 300),
      ("doux", 1000)]),
   ("murmure",
     [("sensuel", 400), ("excite", 700), ("jouissance", 900), ("intense", 800),
      ("doux", 300)]),
   ("intense",
     [("sensuel", 700), ("excite", 500), ("jouissance", 300), ("murmure", 800),
      ("doux", 900)]),
   ("doux",
     [("sensuel", 300), ("excite", 800), ("jouissance", 1000), ("murmure", 300),
      ("intense", 900)])]

/-- `calculateEmotionTransitionDuration` (lines 81-129). -/
def calculateEmotionTransitionDuration (currentEmotion nextEmotion : String) : ℕ :=
  ((transitionMap.lookup currentEmotion).bind
      (fun inner => inner.lookup nextEmotion)).getD 500

/-- The six emotion names keyed by the transition table. -/
def emotionNames : List String :=
  ["sensuel", "excite", "jouissance", "murmure", "intense", "doux"]

/-! ## Claim C1: normalization bounds every sample by the 0.9 target -/

/-- Claim C1: every mix buffer produced by the general mixing path has, after
the normalization pass, absolute sample values at most 0.9 on every channel;
normalization leaves a buffer whose peak is at most 0.9 unchanged and
otherwise multiplies every sample of every channel by 0.9 / peak.  In the
exact rational model the bound holds with epsilon zero. -/
theorem claim_c1_normalization (buffer : List (List ℚ)) (sampleRate : ℕ)
    (fetch : String → DecodedAudioBuffer) (segments : List AudioSegment) :
    (∀ chan ∈ mixGeneral sampleRate fetch segments, ∀ x ∈ chan, |x| ≤ 9 / 10)
    ∧ (∀ chan ∈ normalizeBuffer buffer (9 / 10), ∀ x ∈ chan, |x| ≤ 9 / 10)
    ∧ (peakAbs buffer ≤ 9 / 10 → normalizeBuffer buffer (9 / 10) = buffer)
    ∧ (9 / 10 < peakAbs buffer →
        normalizeBuffer buffer (9 / 10)
          = buffer.map (fun chan => chan.map (fun x => x * ((9 / 10) / peakAbs buffer)))) := by
  refine ⟨?_, ?_, ?_, ?_⟩
  · intro chan hc x hx
    have hc2 : chan ∈ normalizeBuffer
        (mixLoop sampleRate
          (⌈totalDurationOf (sortSegments segments) * (sampleRate : ℚ)⌉.toNat)
          fetch (sortSegments segments)) (9 / 10) := hc
    exact normalizeBuffer_mem_le _ _ (by norm_num) chan hc2 x hx
  · intro chan hc x hx
    exact normalizeBuffer_mem_le _ _ (by norm_num) chan hc x hx
  · intro hpeak
    unfold normalizeBuffer
    rw [if_pos hpeak]
  · intro hpeak
    unfold normalizeBuffer
    rw [if_neg (not_le.mpr hpeak)]

/-- Witness for claim C1 at the concrete buffer [[1, 1/2]] (peak 1 is above
the target, so the buffer is scaled by 0.9) and at [[1/2]] (peak below the
target, left unchanged). -/
theorem claim_c1_normalization_witness :
    |(9 / 10 : ℚ)| ≤ 9 / 10 ∧ normalizeBuffer [[(1 : ℚ) / 2]] (9 / 10) = [[(1 : ℚ) / 2]] :=
  ⟨(claim_c1_normalization [[1, 1 / 2]] 0 (fun _ => ⟨[], 0⟩) []).2.1
      [9 / 10, 9 / 20] (by norm_num [normalizeBuffer, peakAbs, jsAbs])
      (9 / 10) (by norm_num),
   (claim_c1_normalization [[(1 : ℚ) / 2]] 0 (fun _ => ⟨[], 0⟩) []).2.2.1
      (by norm_num [peakAbs, jsAbs])⟩

/-! ## Claim C2: single-segment fast path -/

/-- Claim C2: mixing a one-element segment list returns the segment URL
verbatim as the audio handle (no decoding, mixing or normalization — the
result is not a WAV blob), the segment duration, and the one-element list. -/
theorem claim_c2_single_segment (sampleRate : ℕ) (fetch : String → DecodedAudioBuffer)
    (segment : AudioSegment) :
    mixAudioSegments sampleRate fetch [segment]
      = .ok { audioUrl := .url segment.audioUrl, duration := segment.duration,
              segments := [segment] } := rfl

/-! ## Claim C3: empty input fails -/

/-- Claim C3: mixing the empty list always fails with the empty-input error
and never returns any result. -/
theorem claim_c3_empty_input (sampleRate : ℕ) (fetch : String → DecodedAudioBuffer) :
    mixAudioSegments sampleRate fetch [] = .error .emptyInput
    ∧ ∀ result : MixedAudioResult,
        mixAudioSegments sampleRate fetch [] ≠ .ok result :=
  ⟨rfl, fun _ h => Except.noConfusion h⟩

/-! ## Claim C9: linear fade gains at the boundaries -/

/-- Claim C9: the per-sample gain starts from the segment volume, is
multiplied by s / (fadeIn * sampleRate) when s < fadeIn * sampleRate and by
(bufferLength - s) / (fadeOut * sampleRate) when
s > bufferLength - fadeOut * sampleRate; with fadeIn = 0.1 at 44100 Hz the
gain at sample 0 is 0, and at sample floor(0.1 * 44100) = 4410 (just outside
the fade-in window, volume 1, fade-out not yet reached) it is exactly 1. -/
theorem claim_c9_fade_gain (volume fadeOutV : ℚ) (L : ℕ)
    (h : (4410 : ℚ) ≤ (L : ℚ) - fadeOutV * 44100) :
    (∀ (vol fi fo : ℚ) (n rate s : ℕ),
        sampleGain vol fi fo n rate s
          = vol * (if (s : ℚ) < fi * (rate : ℚ) then (s : ℚ) / (fi * (rate : ℚ)) else 1)
              * (if ((n : ℚ) - fo * (rate : ℚ)) < (s : ℚ) then
                   ((n : ℚ) - (s : ℚ)) / (fo * (rate : ℚ)) else 1))
    ∧ sampleGain volume (1 / 10) fadeOutV L 44100 0 = 0
    ∧ sampleGain 1 (1 / 10) fadeOutV L 44100 4410 = 1 := by
  refine ⟨?_, ?_, ?_⟩
  · intro vol fi fo n rate s
    simp only [sampleGain]
    split_ifs <;> ring
  · simp only [sampleGain]
    norm_num
  · have h2 : ¬ ((L : ℚ) - fadeOutV * ((44100 : ℕ) : ℚ) < ((4410 : ℕ) : ℚ)) := by
      push_cast
      linarith
    simp only [sampleGain]
    rw [if_neg h2]
    norm_num

/-- Witness for claim C9 at buffer length 9000 and fade-out 0.1, where
4410 ≤ 9000 - 4410. -/
theorem claim_c9_fade_gain_witness :
    sampleGain 5 (1 / 10) (1 / 10) 9000 44100 0 = 0
    ∧ sampleGain 1 (1 / 10) (1 / 10) 9000 44100 4410 = 1 :=
  ⟨(claim_c9_fade_gain 5 (1 / 10) 9000 (by norm_num)).2.1,
   (claim_c9_fade_gain 1 (1 / 10) 9000 (by norm_num)).2.2⟩

/-! ## Claim C6: pause durations are capped at 1500 ms -/

/-- Claim C6 counterexample: at the maximum intensity 1.0 the base pause
duration is Math.min(1500, 1700) = 1500 ms, not the 1000 + 700 = 1700 ms the
claim states. -/
theorem claim_c6_counterexample : pauseDurationOf 1 ≠ 1000 + 1 * 700 := by
  norm_num [pauseDurationOf, jsMin]

/-- Claim C6 (amended): the base pause duration is
min(1500, 1000 + intensity * 700) — it equals 1000 + intensity * 700 only up
to intensity 5/7 and is capped at 1500 ms above that (so at maximum
intensity 1.0 the base is 1500 ms, an increase of 500 ms, not 700 ms); the
punctuation multipliers are 1.5 for the exclamation mark, 1.1 for the
question mark, 1.2 for the ellipsis and 0.7 for the comma, as claimed. -/
theorem claim_c6_pause_durations (intensity : ℚ) (h0 : 0 ≤ intensity)
    (h1 : intensity ≤ 1) :
    pauseDurationOf intensity = min 1500 (1000 + intensity * 700)
    ∧ (intensity ≤ 5 / 7 → pauseDurationOf intensity = 1000 + intensity * 700)
    ∧ (5 / 7 ≤ intensity → pauseDurationOf intensity = 1500)
    ∧ breakDurationOf intensity .bang = pauseDurationOf intensity * (3 / 2)
    ∧ breakDurationOf intensity .question = pauseDurationOf intensity * (11 / 10)
    ∧ breakDurationOf intensity .ellipsis = pauseDurationOf intensity * (6 / 5)
    ∧ breakDurationOf intensity .comma = pauseDurationOf intensity * (7 / 10)
    ∧ 1000 ≤ pauseDurationOf intensity ∧ pauseDurationOf intensity ≤ 1500 := by
  have hdef : pauseDurationOf intensity = min 1500 (1000 + intensity * 700) := by
    unfold pauseDurationOf
    exact jsMin_eq_min _ _
  refine ⟨hdef, ?_, ?_, rfl, rfl, rfl, rfl, ?_, ?_⟩
  · intro hle
    rw [hdef, min_eq_right]
    linarith
  · intro hge
    rw [hdef, min_eq_left]
    linarith
  · rw [hdef]
    rcases le_total (1000 + intensity * 700) 1500 with hc | hc
    · rw [min_eq_right hc]
      linarith
    · rw [min_eq_left hc]
      norm_num
  · rw [hdef]
    exact min_le_left _ _

/-- Witness for claim C6 at intensity 1/2 (below the 5/7 cap threshold). -/
theorem claim_c6_pause_durations_witness :
    pauseDurationOf (1 / 2) = 1000 + (1 / 2 : ℚ) * 700 :=
  (claim_c6_pause_durations (1 / 2) (by norm_num) (by norm_num)).2.1 (by norm_num)

/-! ## Claim C10: the emotion transition table is symmetric with default 500 -/

lemma lookup_none_of_forall {β : Type} (a : String) (l : List (String × β))
    (h : ∀ p ∈ l, a ≠ p.1) : l.lookup a = none := by
  induction l with
  | nil => rfl
  | cons p es ih =>
    obtain ⟨k, v⟩ := p
    have hne : (a == k) = false :=
      beq_eq_false_iff_ne.mpr (h (k, v) (List.mem_cons_self _ _))
    simp only [List.lookup, hne]
    exact ih (fun q hq => h q (List.mem_cons_of_mem _ hq))

lemma lookup_mem_values {β : Type} (l : List (String × β)) (a : String) (v : β)
    (h : l.lookup a = some v) : v ∈ l.map Prod.snd := by
  induction l with
  | nil => cases h
  | cons p es ih =>
    obtain ⟨k, b⟩ := p
    by_cases hk : (a == k) = true
    · simp only [List.lookup, hk] at h
      obtain rfl := Option.some.inj h
      simp
    · have hk2 : (a == k) = false := by simpa using hk
      simp only [List.lookup, hk2] at h
      simp [ih h]

lemma transition_unknown_left (a b : String) (ha : a ∉ emotionNames) :
    calculateEmotionTransitionDuration a b = 500 := by
  have h0 : transitionMap.lookup a = none := by
    apply lookup_none_of_forall
    intro p hp
    simp only [emotionNames, List.mem_cons, List.not_mem_nil, or_false] at ha
    fin_cases hp <;> simp_all
  simp [calculateEmotionTransitionDuration, h0]

lemma transition_unknown_right (a b : String) (hb : b ∉ emotionNames) :
    calculateEmotionTransitionDuration a b = 500 := by
  cases hl : transitionMap.lookup a with
  | none => simp [calculateEmotionTransitionDuration, hl]
  | some inner =>
    have hv : inner ∈ transitionMap.map Prod.snd := lookup_mem_values _ _ _ hl
    have hnone : inner.lookup b = none := by
      apply lookup_none_of_forall
      intro p hp
      simp only [transitionMap, List.map_cons, List.map_nil, List.mem_cons,
        List.mem_singleton, List.not_mem_nil, or_false] at hv
      simp only [emotionNames, List.mem_cons, List.not_mem_nil, or_false] at hb
      rcases hv with h | h | h | h | h | h <;> subst h <;> fin_cases hp <;> simp_all
    simp [calculateEmotionTransitionDuration, hl, hnone]

lemma transition_symm (a b : String) :
    calculateEmotionTransitionDuration a b = calculateEmotionTransitionDuration b a := by
  by_cases ha : a ∈ emotionNames
  · by_cases hb : b ∈ emotionNames
    · simp only [emotionNames, List.mem_cons, List.not_mem_nil, or_false] at ha hb
      rcases ha with rfl | rfl | rfl | rfl | rfl | rfl <;>
        rcases hb with rfl | rfl | rfl | rfl | rfl | rfl <;> decide
    · rw [transition_unknown_right a b hb, transition_unknown_left b a hb]
  · rw [transition_unknown_left a b ha, transition_unknown_right b a ha]

lemma transition_diag (e : String) : calculateEmotionTransitionDuration e e = 500 := by
  by_cases he : e ∈ emotionNames
  · simp only [emotionNames, List.mem_cons, List.not_mem_nil, or_false] at he
    rcases he with rfl | rfl | rfl | rfl | rfl | rfl <;> decide
  · exact transition_unknown_left e e he

/-- Claim C10: the transition duration function is symmetric in its two
emotions, and every pair absent from the table — identical emotions (the
table has no diagonal entries) and unknown emotion names alike — yields the
default 500 ms. -/
theorem claim_c10_transition_table :
    (∀ a b : String, calculateEmotionTransitionDuration a b
        = calculateEmotionTransitionDuration b a)
    ∧ (∀ e : String, calculateEmotionTransitionDuration e e = 500)
    ∧ (∀ a b : String, a ∉ emotionNames → calculateEmotionTransitionDuration a b = 500)
    ∧ (∀ a b : String, b ∉ emotionNames → calculateEmotionTransitionDuration a b = 500) :=
  ⟨transition_symm, transition_diag,
   fun a b ha => transition_unknown_left a b ha,
   fun a b hb => transition_unknown_right a b hb⟩

/-- Witness for claim C10 at a concrete table pair and a concrete unknown
emotion name. -/
theorem claim_c10_transition_table_witness :
    calculateEmotionTransitionDuration "sensuel" "excite"
        = calculateEmotionTransitionDuration "excite" "sensuel"
    ∧ calculateEmotionTransitionDuration "autre" "doux" = 500 :=
  ⟨claim_c10_transition_table.1 "sensuel" "excite",
   claim_c10_transition_table.2.2.1 "autre" "doux" (by decide)⟩

/-! ## Claims C5 and C4: timeline scheduling -/

lemma timingAux_length (dFI dFO dCF t : ℚ) (l : List TimingInput) :
    (calculateSegmentTimingAux dFI dFO dCF t l).length = l.length := by
  induction l generalizing t with
  | nil => rfl
  | cons seg rest ih =>
    simp [calculateSegmentTimingAux, ih]

lemma timingAux_getD_duration (dFI dFO dCF : ℚ) (l : List TimingInput) (t : ℚ)
    (i : ℕ) (h : i < l.length) :
    ((calculateSegmentTimingAux dFI dFO dCF t l).getD i default).duration
      = estimatedDurationOf (l.getD i default) := by
  induction l generalizing t i with
  | nil => simp at h
  | cons seg rest ih =>
    cases i with
    | zero => rfl
    | succ j =>
      simp only [calculateSegmentTimingAux, List.getD_cons_succ]
      exact ih _ j (by simpa using h)

lemma timingAux_consecutive (dFI dFO dCF : ℚ) (l : List TimingInput) (t : ℚ)
    (i : ℕ) (h : i + 1 < l.length) :
    ((calculateSegmentTimingAux dFI dFO dCF t l).getD (i + 1) default).startTime
      = ((calculateSegmentTimingAux dFI dFO dCF t l).getD i default).startTime
        + ((calculateSegmentTimingAux dFI dFO dCF t l).getD i default).duration
        - dCF := by
  induction l generalizing t i with
  | nil => simp at h
  | cons seg rest ih =>
    cases i with
    | zero =>
      cases rest with
      | nil => simp at h
      | cons seg2 rest2 => rfl
    | succ j =>
      simp only [calculateSegmentTimingAux, List.getD_cons_succ]
      exact ih _ j (by simpa using h)

/-- Claim C5: with the default options the scheduler produces one timed
segment per input, the first starting at 0, each with duration
textLength / charsPerSecond(speechRate) + pauseCount * 0.3, consecutive
start times differing by exactly duration - 0.3 (the crossfade window), and
the charsPerSecond table mapping the four declared rates to 10, 12, 15 and
18 with default 13. -/
theorem claim_c5_schedule (segments : List TimingInput) :
    (calculateSegmentTiming segments none none none).length = segments.length
    ∧ (segments ≠ [] →
        ((calculateSegmentTiming segments none none none).getD 0 default).startTime = 0)
    ∧ (∀ i, i < segments.length →
        ((calculateSegmentTiming segments none none none).getD i default).duration
          = ((segments.getD i default).segment.length : ℚ)
              / charsPerSecondOf (segments.getD i default).speechRate
            + (pauseCountOf (segments.getD i default).segment : ℚ) * (3 / 10))
    ∧ (∀ i, i + 1 < segments.length →
        ((calculateSegmentTiming segments none none none).getD (i + 1) default).startTime
            - ((calculateSegmentTiming segments none none none).getD i default).startTime
          = ((calculateSegmentTiming segments none none none).getD i default).duration
              - 3 / 10)
    ∧ charsPerSecondOf "très lent" = 10 ∧ charsPerSecondOf "lent" = 12
    ∧ charsPerSecondOf "modéré" = 15 ∧ charsPerSecondOf "rapide" = 18
    ∧ (∀ r : String, r ≠ "très lent" → r ≠ "lent" → r ≠ "modéré" → r ≠ "rapide" →
        charsPerSecondOf r = 13) := by
  refine ⟨timingAux_length _ _ _ _ _, ?_, ?_, ?_, rfl, rfl, rfl, rfl, ?_⟩
  · intro hne
    cases segments with
    | nil => exact absurd rfl hne
    | cons seg rest => rfl
  · intro i h
    exact timingAux_getD_duration _ _ _ _ _ i h
  · intro i h
    have hc := timingAux_consecutive (3 / 20) (1 / 5) (3 / 10)
      segments 0 i (by simpa using h)
    have hc2 : ((calculateSegmentTiming segments none none none).getD (i + 1)
          default).startTime
        = ((calculateSegmentTiming segments none none none).getD i default).startTime
          + ((calculateSegmentTiming segments none none none).getD i
              default).duration - 3 / 10 := hc
    rw [hc2]
    ring
  · intro r h1 h2 h3 h4
    unfold charsPerSecondOf
    rw [if_neg h1, if_neg h2, if_neg h3, if_neg h4]

/-- Concrete scheduler input used by the C5 and C4 witnesses. -/
def timingWitnessInput : List TimingInput :=
  [{ segment := "Bonjour tout le monde.", speechRate := "modéré",
     fadeIn := none, fadeOut := none },
   { segment := "Encore une phrase assez longue.", speechRate := "lent",
     fadeIn := none, fadeOut := none }]

/-- Witness for claim C5 at a concrete two-segment input: the second start
time differs from the first by the first duration minus the crossfade. -/
theorem claim_c5_schedule_witness :
    ((calculateSegmentTiming timingWitnessInput none none none).getD 1
          default).startTime
        - ((calculateSegmentTiming timingWitnessInput none none none).getD 0
            default).startTime
      = ((calculateSegmentTiming timingWitnessInput none none none).getD 0
            default).duration - 3 / 10
    ∧ timingWitnessInput ≠ [] :=
  ⟨(claim_c5_schedule timingWitnessInput).2.2.2.1 0 (by decide),
   fun h => List.noConfusion h⟩

/-- Scheduler input falsifying claim C4: the first segment is a single
character, so its estimated duration 1/15 s is smaller than the 0.3 s
crossfade and the running time goes backwards. -/
def c4Input : List TimingInput :=
  [{ segment := "a", speechRate := "modéré", fadeIn := none, fadeOut := none },
   { segment := "b", speechRate := "modéré", fadeIn := none, fadeOut := none }]

/-- Claim C4 counterexample: on `c4Input` the scheduler produces two
segments whose second start time (1/15 - 3/10 = -7/30) is strictly below
the first (0), so startTime is not non-decreasing. -/
theorem claim_c4_counterexample :
    (calculateSegmentTiming c4Input none none none).length = 2
    ∧ ((calculateSegmentTiming c4Input none none none).getD 1 default).startTime
        < ((calculateSegmentTiming c4Input none none none).getD 0 default).startTime := by
  constructor
  · rfl
  · have h0 : ((calculateSegmentTiming c4Input none none none).getD 0
        default).startTime = 0 := rfl
    have h1 : ((calculateSegmentTiming c4Input none none none).getD 1
          default).startTime
        = 0 + ((("a" : String).length : ℚ) / charsPerSecondOf "modéré"
            + (pauseCountOf "a" : ℚ) * (3 / 10)) - 3 / 10 := rfl
    have hlen : ("a" : String).length = 1 := rfl
    have hpc : pauseCountOf "a" = 0 := rfl
    have hcps : charsPerSecondOf "modéré" = 15 := rfl
    rw [h0, h1, hlen, hpc, hcps]
    norm_num

/-- Claim C4 (amended): startTime is non-decreasing across the scheduled
list provided every segment estimated duration is at least the 0.3 s
crossfade window; a segment shorter than the crossfade (such as a
one-character text, claim C4 counterexample) makes the next start time
strictly smaller. -/
theorem claim_c4_monotone (segments : List TimingInput)
    (hdur : ∀ seg ∈ segments, (3 / 10 : ℚ) ≤ estimatedDurationOf seg) :
    ∀ i, i + 1 < segments.length →
      ((calculateSegmentTiming segments none none none).getD i default).startTime
        ≤ ((calculateSegmentTiming segments none none none).getD (i + 1)
            default).startTime := by
  intro i h
  have hc : ((calculateSegmentTiming segments none none none).getD (i + 1)
        default).startTime
      = ((calculateSegmentTiming segments none none none).getD i
          default).startTime
        + ((calculateSegmentTiming segments none none none).getD i
            default).duration - 3 / 10 :=
    timingAux_consecutive (3 / 20) (1 / 5) (3 / 10) segments 0 i h
  have hd : ((calculateSegmentTiming segments none none none).getD i
        default).duration
      = estimatedDurationOf (segments.getD i default) :=
    timingAux_getD_duration (3 / 20) (1 / 5) (3 / 10) segments 0 i
      (Nat.lt_of_succ_lt h)
  have hmem : segments.getD i default ∈ segments := by
    rw [List.getD_eq_getElem segments default (Nat.lt_of_succ_lt h)]
    exact List.getElem_mem _
  have hest := hdur _ hmem
  rw [hc, hd]
  linarith

/-- Witness for the amended claim C4 at a concrete two-segment input whose
durations both exceed the crossfade window. -/
theorem claim_c4_monotone_witness :
    ((calculateSegmentTiming timingWitnessInput none none none).getD 0
        default).startTime
      ≤ ((calculateSegmentTiming timingWitnessInput none none none).getD 1
          default).startTime := by
  refine claim_c4_monotone timingWitnessInput ?_ 0 (by decide)
  intro seg hseg
  simp only [timingWitnessInput, List.mem_cons, List.not_mem_nil, or_false] at hseg
  rcases hseg with rfl | rfl
  · have hshow : estimatedDurationOf
        { segment := "Bonjour tout le monde.", speechRate := "modéré",
          fadeIn := none, fadeOut := none }
        = (("Bonjour tout le monde." : String).length : ℚ)
            / charsPerSecondOf "modéré"
          + (pauseCountOf "Bonjour tout le monde." : ℚ) * (3 / 10) := rfl
    have hlen : ("Bonjour tout le monde." : String).length = 22 := rfl
    have hpc : pauseCountOf "Bonjour tout le monde." = 1 := rfl
    have hcps : charsPerSecondOf "modéré" = 15 := rfl
    rw [hshow, hlen, hpc, hcps]
    norm_num
  · have hshow : estimatedDurationOf
        { segment := "Encore une phrase assez longue.", speechRate := "lent",
          fadeIn := none, fadeOut := none }
        = (("Encore une phrase assez longue." : String).length : ℚ)
            / charsPerSecondOf "lent"
          + (pauseCountOf "Encore une phrase assez longue." : ℚ) * (3 / 10) := rfl
    have hlen : ("Encore une phrase assez longue." : String).length = 31 := rfl
    have hpc : pauseCountOf "Encore une phrase assez longue." = 1 := rfl
    have hcps : charsPerSecondOf "lent" = 12 := rfl
    rw [hshow, hlen, hpc, hcps]
    norm_num

/-! ## Claim C7: the WAV encoder -/

lemma writeI16_length (l : List ℕ) (off : ℕ) (n : ℤ) :
    (writeI16 l off n).length = l.length := by
  simp [writeI16]

lemma foldl_length_eq {α : Type} (l : List α) (g : List ℕ → α → List ℕ)
    (hg : ∀ acc a, (g acc a).length = acc.length) (init : List ℕ) :
    (l.foldl g init).length = init.length := by
  induction l generalizing init with
  | nil => rfl
  | cons a t ih =>
    simp only [List.foldl_cons]
    rw [ih, hg]

lemma wavHeader_length (len C rate : ℕ) : (wavHeader len C rate).length = 44 := rfl

lemma wavDataBytes_length (buf : PcmAudioBuffer) :
    (wavDataBytes buf).length = buf.length * buf.channels.length * 2 := by
  unfold wavDataBytes
  exact (foldl_length_eq _ _
    (fun acc ch => foldl_length_eq _ _
      (fun acc2 i => writeI16_length _ _ _) acc) _).trans
    (List.length_replicate _ _)

lemma exportToBuffer_length (buf : PcmAudioBuffer) :
    (exportToBuffer buf).length = 44 + buf.length * buf.channels.length * 2 := by
  unfold exportToBuffer
  rw [List.length_append, wavHeader_length, wavDataBytes_length]

set_option maxHeartbeats 2000000 in
lemma readU32le_wavHeader_40 (len C rate : ℕ) (data : List ℕ) :
    readU32le (wavHeader len C rate ++ data) 40
      = len % 256 + 256 * (len / 256 % 256) + 65536 * (len / 65536 % 256)
        + 16777216 * (len / 16777216 % 256) := rfl

set_option maxHeartbeats 2000000 in
lemma readU32le_wavHeader_4 (len C rate : ℕ) (data : List ℕ) :
    readU32le (wavHeader len C rate ++ data) 4
      = (36 + len) % 256 + 256 * ((36 + len) / 256 % 256)
        + 65536 * ((36 + len) / 65536 % 256)
        + 16777216 * ((36 + len) / 16777216 % 256) := rfl

lemma u32_decode (n : ℕ) (h : n < 4294967296) :
    n % 256 + 256 * (n / 256 % 256) + 65536 * (n / 65536 % 256)
      + 16777216 * (n / 16777216 % 256) = n := by omega

/-- The all-zero stereo buffer of the encoder round-trip property. -/
def zeroStereoBuffer (L : ℕ) : PcmAudioBuffer :=
  { channels := [List.replicate L 0, List.replicate L 0], length := L,
    sampleRate := 44100 }

lemma getD_replicate_zero {α : Type} [Inhabited α] (d : α) (n i : ℕ) :
    (List.replicate n d).getD i d = d := by
  rw [List.getD_eq_getElem?_getD, List.getElem?_replicate]
  split_ifs <;> rfl

lemma set_replicate_self {α : Type} (d : α) (n i : ℕ) :
    (List.replicate n d).set i d = List.replicate n d := by
  induction n generalizing i with
  | zero => rfl
  | succ m ih =>
    cases i with
    | zero => simp [List.replicate_succ]
    | succ j => simp [List.replicate_succ, ih]

lemma sampleToInt16_zero : sampleToInt16 0 = 0 := by
  norm_num [sampleToInt16, ratTrunc, jsMax, jsMin]

lemma writeI16_zero_replicate (n off : ℕ) :
    writeI16 (List.replicate n 0) off 0 = List.replicate n 0 := by
  unfold writeI16
  norm_num

lemma wavDataBytes_zeroStereo (L : ℕ) :
    wavDataBytes (zeroStereoBuffer L) = List.replicate (L * 2 * 2) 0 := by
  unfold wavDataBytes zeroStereoBuffer
  simp only [List.length_cons, List.length_nil]
  apply List.foldl_fixed'
  intro channel
  apply List.foldl_fixed'
  intro i
  have hchan : ∀ m : ℕ, ([List.replicate L (0 : ℚ), List.replicate L 0].getD m []).getD i 0
      = 0 := by
    intro m
    match m with
    | 0 => exact getD_replicate_zero 0 L i
    | 1 => exact getD_replicate_zero 0 L i
    | (k + 2) => rfl
  rw [hchan, sampleToInt16_zero, writeI16_zero_replicate]

lemma readI16le_zero_region (L k : ℕ) (hk : k < 2 * L) :
    readI16le (exportToBuffer (zeroStereoBuffer L)) (44 + 2 * k) = 0 := by
  have hbytes : exportToBuffer (zeroStereoBuffer L)
      = wavHeader (L * 2 * 2) 2 44100 ++ List.replicate (L * 2 * 2) 0 := by
    unfold exportToBuffer
    rw [wavDataBytes_zeroStereo]
    rfl
  have hget : ∀ j : ℕ, j < L * 2 * 2 →
      (exportToBuffer (zeroStereoBuffer L)).getD (44 + j) 0 = 0 := by
    intro j hj
    rw [hbytes, List.getD_eq_getElem?_getD,
      List.getElem?_append_right (by rw [wavHeader_length]; omega)]
    rw [wavHeader_length]
    have : 44 + j - 44 = j := by omega
    rw [this, List.getElem?_replicate_of_lt hj]
    rfl
  unfold readI16le
  have h1 : (exportToBuffer (zeroStereoBuffer L)).getD (44 + 2 * k) 0 = 0 :=
    hget (2 * k) (by omega)
  have h2 : (exportToBuffer (zeroStereoBuffer L)).getD (44 + 2 * k + 1) 0 = 0 :=
    hget (2 * k + 1) (by omega)
  rw [h1, h2]
  norm_num

/-- Claim C7: the encoder emits exactly 44 + L*C*2 bytes for a buffer of L
frames and C channels, with the data subchunk size field (offset 40) equal
to L*C*2 and the RIFF size field (offset 4) equal to 36 + L*C*2 whenever
those values fit in 32 bits; it is a total function of the buffer; and an
all-zero stereo buffer of length L at 44100 Hz yields 44 + L*2*2 bytes whose
data section decodes back (by the reference PCM reader) to 2*L zero
samples. -/
theorem claim_c7_encoder (buf : PcmAudioBuffer) (L : ℕ)
    (hfit : 36 + buf.length * buf.channels.length * 2 < 4294967296)
    (hfitL : 36 + L * 2 * 2 < 4294967296) :
    (exportToBuffer buf).length = 44 + buf.length * buf.channels.length * 2
    ∧ readU32le (exportToBuffer buf) 40 = buf.length * buf.channels.length * 2
    ∧ readU32le (exportToBuffer buf) 4 = 36 + buf.length * buf.channels.length * 2
    ∧ (exportToBuffer (zeroStereoBuffer L)).length = 44 + L * 2 * 2
    ∧ specReadPCM16Samples (exportToBuffer (zeroStereoBuffer L))
        = List.replicate (2 * L) 0 := by
  refine ⟨exportToBuffer_length buf, ?_, ?_, exportToBuffer_length (zeroStereoBuffer L), ?_⟩
  · exact (readU32le_wavHeader_40 _ _ _ _).trans (u32_decode _ (by omega))
  · exact (readU32le_wavHeader_4 _ _ _ _).trans (u32_decode _ (by omega))
  · have h40 : readU32le (exportToBuffer (zeroStereoBuffer L)) 40 = L * 2 * 2 :=
      (readU32le_wavHeader_40 _ _ _ _).trans
        (u32_decode (L * 2 * 2) (lt_of_le_of_lt (Nat.le_add_left _ 36) hfitL))
    simp only [specReadPCM16Samples]
    rw [h40]
    have hdiv : L * 2 * 2 / 2 = 2 * L := by omega
    rw [hdiv]
    rw [List.map_congr_left
      (fun k hk => readI16le_zero_region L k (List.mem_range.mp hk))]
    rw [List.map_const']
    rw [List.length_range]

/-- Witness for claim C7 at the zero stereo buffer of length 3. -/
theorem claim_c7_encoder_witness :
    (exportToBuffer (zeroStereoBuffer 3)).length = 44 + 3 * 2 * 2
    ∧ specReadPCM16Samples (exportToBuffer (zeroStereoBuffer 3))
        = List.replicate (2 * 3) 0 := by
  have h := claim_c7_encoder (zeroStereoBuffer 3) 3 (by norm_num [zeroStereoBuffer]) (by norm_num)
  exact ⟨h.2.2.2.1, h.2.2.2.2⟩

/-! ## Claim C8: order (in)dependence of the general mixing path -/

/-- Two decoded buffers used by the claim C8 counterexample and witness. -/
def bufACE : DecodedAudioBuffer := ⟨[[(1 : ℚ) / 2, 1 / 2]], 2⟩

def bufBCE : DecodedAudioBuffer := ⟨[[(1 : ℚ) / 4, 1 / 4]], 2⟩

/-- Two segments sharing startTime 0 — the stable sort keeps whichever
comes first in the input, and only the sorted-last segment escapes the
computed crossfade fade-out. -/
def segACE : AudioSegment := ⟨0, 11 / 10, "a", none, none, none⟩

def segBCE : AudioSegment := ⟨0, 11 / 10, "b", none, none, none⟩

/-- A variant of segBCE with a distinct startTime, for the amended claim. -/
def segBCE2 : AudioSegment := ⟨1 / 2, 11 / 10, "b", none, none, none⟩

def fetchCE : String → DecodedAudioBuffer :=
  fun u => if u = "a" then bufACE else bufBCE

set_option maxHeartbeats 2000000 in
lemma mixCE_order1 : mixGeneral 5 fetchCE [segACE, segBCE]
    = [[0, 31 / 44, 0, 0, 0, 0], [0, 31 / 44, 0, 0, 0, 0]] := by
  have hsort : sortSegments [segACE, segBCE] = [segACE, segBCE] := by
    norm_num [sortSegments, List.insertionSort, List.orderedInsert, segmentLE,
      segACE, segBCE]
  have htot : totalDurationOf [segACE, segBCE] = 11 / 10 := by
    norm_num [totalDurationOf, jsMax, segACE, segBCE]
  have hceil : ⌈(11 / 10 : ℚ) * ((5 : ℕ) : ℚ)⌉ = 6 := by
    rw [show (11 / 10 : ℚ) * ((5 : ℕ) : ℚ) = 11 / 2 by norm_num, Int.ceil_eq_iff]
    norm_num
  have hsamp : (⌈totalDurationOf [segACE, segBCE] * ((5 : ℕ) : ℚ)⌉).toNat = 6 := by
    rw [htot, hceil]
    rfl
  have hfa : fetchCE "a" = bufACE := rfl
  have hfb : fetchCE "b" = bufBCE := rfl
  have hr2 : List.range 2 = [0, 1] := rfl
  have hrep6 : List.replicate 6 (0 : ℚ) = [0, 0, 0, 0, 0, 0] := rfl
  simp only [mixGeneral, hsort, hsamp]
  norm_num [mixLoop, List.enum, List.enumFrom, mixSegmentInto, mixChannel,
    sampleGain, jsOr, jsMin, hfa, hfb, bufACE, bufBCE, segACE, segBCE, hr2,
    hrep6, normalizeBuffer, peakAbs, jsAbs]

set_option maxHeartbeats 2000000 in
lemma mixCE_order2 : mixGeneral 5 fetchCE [segBCE, segACE]
    = [[0, 8 / 11, 0, 0, 0, 0], [0, 8 / 11, 0, 0, 0, 0]] := by
  have hsort : sortSegments [segBCE, segACE] = [segBCE, segACE] := by
    norm_num [sortSegments, List.insertionSort, List.orderedInsert, segmentLE,
      segACE, segBCE]
  have htot : totalDurationOf [segBCE, segACE] = 11 / 10 := by
    norm_num [totalDurationOf, jsMax, segACE, segBCE]
  have hceil : ⌈(11 / 10 : ℚ) * ((5 : ℕ) : ℚ)⌉ = 6 := by
    rw [show (11 / 10 : ℚ) * ((5 : ℕ) : ℚ) = 11 / 2 by norm_num, Int.ceil_eq_iff]
    norm_num
  have hsamp : (⌈totalDurationOf [segBCE, segACE] * ((5 : ℕ) : ℚ)⌉).toNat = 6 := by
    rw [htot, hceil]
    rfl
  have hfa : fetchCE "a" = bufACE := rfl
  have hfb : fetchCE "b" = bufBCE := rfl
  have hr2 : List.range 2 = [0, 1] := rfl
  have hrep6 : List.replicate 6 (0 : ℚ) = [0, 0, 0, 0, 0, 0] := rfl
  simp only [mixGeneral, hsort, hsamp]
  norm_num [mixLoop, List.enum, List.enumFrom, mixSegmentInto, mixChannel,
    sampleGain, jsOr, jsMin, hfa, hfb, bufACE, bufBCE, segACE, segBCE, hr2,
    hrep6, normalizeBuffer, peakAbs, jsAbs]

/-- Claim C8 counterexample: the segment sets [segACE, segBCE] and
[segBCE, segACE] are permutations of each other (both segments start at 0),
yet the two input orders produce different mixed buffers: the stable sort
preserves the tie order, and only the sorted-last segment gets fade-out 0
instead of the computed crossfade, so sample 1 is 31/44 in one order and
8/11 in the other. -/
theorem claim_c8_counterexample :
    mixGeneral 5 fetchCE [segACE, segBCE] ≠ mixGeneral 5 fetchCE [segBCE, segACE]
    ∧ [segACE, segBCE].Perm [segBCE, segACE] := by
  constructor
  · rw [mixCE_order1, mixCE_order2]
    intro heq
    norm_num at heq
  · exact List.Perm.swap _ _ _

instance : IsTotal AudioSegment segmentLE :=
  ⟨fun a b => le_total a.startTime b.startTime⟩

instance : IsTrans AudioSegment segmentLE :=
  ⟨fun _ _ _ h1 h2 => le_trans h1 h2⟩

instance : IsAntisymm AudioSegment segmentLT :=
  ⟨fun _ _ h1 h2 => absurd h2 (lt_asymm h1)⟩

lemma sortSegments_perm (l : List AudioSegment) : (sortSegments l).Perm l :=
  List.perm_insertionSort _ _

lemma sortSegments_sorted (l : List AudioSegment) :
    List.Sorted segmentLE (sortSegments l) :=
  List.sorted_insertionSort _ _

lemma sorted_lt_of_pairwise_ne {l : List AudioSegment}
    (hs : List.Sorted segmentLE l)
    (hd : l.Pairwise (fun a b => a.startTime ≠ b.startTime)) :
    List.Sorted segmentLT l :=
  (hs.and hd).imp (fun h => lt_of_le_of_ne h.1 h.2)

lemma sortSegments_eq_of_perm (l₁ l₂ : List AudioSegment) (hp : l₁.Perm l₂)
    (hd : l₁.Pairwise (fun a b => a.startTime ≠ b.startTime)) :
    sortSegments l₁ = sortSegments l₂ := by
  have hd1 : (sortSegments l₁).Pairwise (fun a b => a.startTime ≠ b.startTime) :=
    ((sortSegments_perm l₁).pairwise_iff (fun h => Ne.symm h)).mpr hd
  have hd2l : l₂.Pairwise (fun a b => a.startTime ≠ b.startTime) :=
    (hp.pairwise_iff (fun h => Ne.symm h)).mp hd
  have hd2 : (sortSegments l₂).Pairwise (fun a b => a.startTime ≠ b.startTime) :=
    ((sortSegments_perm l₂).pairwise_iff (fun h => Ne.symm h)).mpr hd2l
  exact List.eq_of_perm_of_sorted
    ((sortSegments_perm l₁).trans (hp.trans (sortSegments_perm l₂).symm))
    (sorted_lt_of_pairwise_ne (sortSegments_sorted l₁) hd1)
    (sorted_lt_of_pairwise_ne (sortSegments_sorted l₂) hd2)

/-- Claim C8 (amended): when the startTimes of the segment set are pairwise
distinct, the stable sort of any permutation of the set yields the same
list, so the general mixing path produces an identical mixed buffer for
every input order (this covers the spec example with segments at 0.0 s and
1.0 s); with tied startTimes the output can differ (claim C8
counterexample). -/
theorem claim_c8_perm_invariant (sampleRate : ℕ)
    (fetch : String → DecodedAudioBuffer) (l₁ l₂ : List AudioSegment)
    (hp : l₁.Perm l₂)
    (hd : l₁.Pairwise (fun a b => a.startTime ≠ b.startTime)) :
    mixGeneral sampleRate fetch l₁ = mixGeneral sampleRate fetch l₂ := by
  simp only [mixGeneral]
  rw [sortSegments_eq_of_perm l₁ l₂ hp hd]

/-- Witness for the amended claim C8: swapping two segments with distinct
startTimes 0 and 1/2 leaves the mixed buffer unchanged. -/
theorem claim_c8_perm_invariant_witness :
    mixGeneral 5 fetchCE [segACE, segBCE2]
      = mixGeneral 5 fetchCE [segBCE2, segACE] :=
  claim_c8_perm_invariant 5 fetchCE _ _ (List.Perm.swap _ _ _)
    (by norm_num [List.pairwise_cons, segACE, segBCE2])
